import Mathlib

set_option maxRecDepth 100000

/-!
Verification of the news-aggregation core (semantic deduplication, highlight
synthesis, retrieval-augmented answering) against its specification.

The Python sources `ai_processor.py`, `rag_chatbot.py`, `models.py` and
`config.py` are shallowly embedded below.  Python floats only ever hold exactly
representable values here (integer counts, `+1.0`, `* 0.5`), so scores are
modelled as rationals.  Fallible external calls (the OpenAI generation
provider, the embedding backend, the vector store) are passed in explicitly as
`Except`/outcome parameters; a Python `try/except` becomes a `match` on that
parameter.  Module-level mutable state (`_openai_quota_exceeded`) becomes
explicit state passing.
-/

/-! ## Data model (`models.py`)

`Article` mirrors the pydantic `Article` model; the `extracted_at` timestamp is
omitted (it is a wall-clock default never read by the embedded code) and
datetimes are treated as opaque strings. -/

structure Article where
  title : String
  content : String
  author : Option String := none
  source : String
  url : String
  category : Option String := none
  published_date : Option String := none
  summary : Option String := none
  keywords : List String := []
  is_duplicate : Bool := false
  duplicate_group_id : Option String := none
deriving DecidableEq, Repr, Inhabited

structure Highlight where
  title : String
  summary : String
  category : String
  sources : List String := []
  authors : List String := []
  frequency : Nat := 1
  priority_score : ℚ := 0
  keywords : List String := []
  urls : List String := []
  published_dates : List String := []
deriving DecidableEq, Repr, Inhabited

/-! ## Configuration (`config.py`) -/

def PRIORITY_KEYWORDS : List String :=
  ["breaking news", "breaking", "urgent", "exclusive", "alert", "update", "developing"]

def SIMILARITY_THRESHOLD : ℚ := 85 / 100

/-! ## String helpers

The Python string operations used by the sources, implemented structurally
over the character list of a `String` (Python strings are character
sequences; all arguments here are plain ASCII text). -/

/-- Python's `sub in s` (substring containment). -/
def containsSubstr (s sub : String) : Bool :=
  decide (List.IsInfix sub.toList s.toList)

/-- Python's `s.lower()`. -/
def pyLower (s : String) : String := String.mk (s.data.map Char.toLower)

/-- Python's `s.strip()`: drop whitespace from both ends. -/
def pyStrip (s : String) : String :=
  String.mk (((s.data.dropWhile Char.isWhitespace).reverse.dropWhile
    Char.isWhitespace).reverse)

/-- Python's `s[:n]` (strings are indexed by characters). -/
def pyTake (s : String) (n : Nat) : String := String.mk (s.data.take n)

/-- Python's `s.split(sep)` for a one-character separator: split at every
occurrence, keeping empty segments. -/
def splitChars (sep : Char) : List Char → List (List Char)
  | [] => [[]]
  | c :: rest =>
    if c = sep then [] :: splitChars sep rest
    else
      match splitChars sep rest with
      | [] => [[c]]
      | g :: gs => (c :: g) :: gs

/-- `s.split(sep)` as strings. -/
def pySplitOn (s : String) (sep : Char) : List String :=
  (splitChars sep s.data).map String.mk

/-- Python's no-argument `s.split()`: split on runs of whitespace, no empty
segments. -/
def pySplitWs (s : String) : List String :=
  ((splitChars ' ' ((s.data.map (fun c =>
    if c.isWhitespace then ' ' else c))).asString.data).map String.mk).filter
    (fun w => w ≠ "")

/-- Python's `sep.join(parts)`. -/
def pyJoin (sep : String) (parts : List String) : String :=
  String.mk (List.intercalate sep.data (parts.map String.data))

/-! ## Summarization and the degrading gate (`ai_processor.py`)

`_openai_quota_exceeded` is a module-level boolean, `False` at process start;
it is threaded explicitly below.  The outcome of one
`openai_client.chat.completions.create` call is either generated text or an
exception message. -/

/-- Outcome of one call to the OpenAI generation provider: the generated text,
or the string form of the raised exception. -/
inductive CallResult where
  | ok (text : String)
  | err (msg : String)
deriving DecidableEq, Repr

/-- The quota/rate-limit test from `ai_processor.summarize_article` (and
identically in `rag_chatbot.query`): `'429' in error_str or 'quota' in
error_str.lower() or 'insufficient_quota' in error_str.lower()`. -/
def isQuotaError (msg : String) : Bool :=
  containsSubstr msg "429" || containsSubstr (pyLower msg) "quota" ||
    containsSubstr (pyLower msg) "insufficient_quota"

/-- `AIProcessor._extractive_summary`: split the body on periods, keep trimmed
segments longer than 20 characters, join the first up-to-3 with ". " and a
trailing period; with no qualifying segment fall back to the first 200
characters (ellipsis if truncated); cap the result at 300 characters. -/
def extractive_summary (article : Article) : String :=
  let sentences := ((pySplitOn article.content '.').map pyStrip).filter
    (fun s => 20 < s.length)
  let summary :=
    if 3 ≤ sentences.length then pyJoin ". " (sentences.take 3) ++ "."
    else if 2 ≤ sentences.length then pyJoin ". " (sentences.take 2) ++ "."
    else if 1 ≤ sentences.length then sentences.headD "" ++ "."
    else if 200 < article.content.length then pyTake article.content 200 ++ "..."
    else pyTake article.content 200
  if 300 < summary.length then pyTake summary 300 ++ "..." else summary

/-- `AIProcessor.summarize_article` as one step of a state machine.  State is
the module-level `_openai_quota_exceeded` flag; `clientPresent` models
`openai_client is not None`; `outcome` is the provider call's result (only
consulted when the provider is actually invoked).  Returns the summary and the
new flag value. -/
def summarize_article (clientPresent : Bool) (article : Article)
    (outcome : CallResult) (quotaExceeded : Bool) : String × Bool :=
  if !clientPresent || quotaExceeded then (extractive_summary article, quotaExceeded)
  else
    match outcome with
    | CallResult.ok text => (pyStrip text, quotaExceeded)
    | CallResult.err msg =>
      if isQuotaError msg then (extractive_summary article, true)
      else (extractive_summary article, quotaExceeded)

/-- A sequence of `summarize_article` calls, threading the
`_openai_quota_exceeded` flag; returns all summaries and the final flag. -/
def runSummarizeCalls (clientPresent : Bool) (quotaExceeded : Bool) :
    List (Article × CallResult) → List String × Bool
  | [] => ([], quotaExceeded)
  | (a, o) :: rest =>
    let r := summarize_article clientPresent a o quotaExceeded
    let rs := runSummarizeCalls clientPresent r.2 rest
    (r.1 :: rs.1, rs.2)

/-! ## RAG chatbot (`rag_chatbot.py`) -/

/-- The fixed insufficient-information message of `RAGChatbot.query` and
`RAGChatbot._generate_fallback_response`. -/
def insufficientMsg : String :=
  "I don\x27t have enough information about recent news highlights to answer your question. Please try asking about sports, lifestyle, music, or finance news."

/-- The fixed apologetic error message of `RAGChatbot.query`'s outer handler. -/
def apologyMsg : String :=
  "I encountered an error while processing your question. Please try again later."

/-- `RAGChatbot._generate_fallback_response`: pick the first context document
containing any query word longer than 3 characters (lowercased substring
test), defaulting to the first document; keep only its `Summary:`/`Title:`
lines if any, truncated to 400 characters with a trailing ellipsis. -/
def generate_fallback_response (contextDocs : List String) (userMessage : String) :
    String :=
  match contextDocs with
  | [] => insufficientMsg
  | d0 :: _ =>
    let userLower := pyLower userMessage
    let words := pySplitWs userLower
    let relevantDoc :=
      (contextDocs.find? (fun doc =>
        words.any (fun w => 3 < w.length && containsSubstr (pyLower doc) w))).getD d0
    let lines := pySplitOn relevantDoc '\n'
    let summary := lines.foldl
      (fun acc line =>
        if containsSubstr line "Summary:" || containsSubstr line "Title:" then
          acc ++ line ++ "\n"
        else acc) ""
    if summary ≠ "" then
      "Based on the news highlights:\n\n" ++ pyTake summary 400 ++ "..."
    else
      "Based on the news highlights:\n\n" ++ pyTake relevantDoc 400 ++ "..."

/-- The generation portion of `RAGChatbot.query` (lines 127–157): with a
client present the provider is always attempted; any provider exception —
quota-flavoured or not — resolves to the fallback response for this call only
(the two `except` arms differ only in logging).  No module-level flag exists
in `rag_chatbot.py`, so nothing persists across calls. -/
def queryGenerate (clientPresent : Bool) (contextDocs : List String)
    (userMessage : String) (outcome : CallResult) : String :=
  if clientPresent then
    match outcome with
    | CallResult.ok text => pyStrip text
    | CallResult.err msg =>
      if isQuotaError msg then generate_fallback_response contextDocs userMessage
      else generate_fallback_response contextDocs userMessage
  else generate_fallback_response contextDocs userMessage

/-- `RAGChatbot.query` in full.  `embedResult` is the query-embedding call,
`searchResult` the vector-store search (carrying `results['documents'][0]`,
empty when the index has no documents); both sit inside the outer `try`, whose
`except` arm yields `apologyMsg`. -/
def query (clientPresent : Bool) (embedResult : Except String Unit)
    (searchResult : Except String (List String)) (userMessage : String)
    (outcome : CallResult) : String :=
  match embedResult with
  | Except.error _ => apologyMsg
  | Except.ok _ =>
    match searchResult with
    | Except.error _ => apologyMsg
    | Except.ok contextDocs =>
      if contextDocs.isEmpty then insufficientMsg
      else queryGenerate clientPresent contextDocs userMessage outcome

/-! ## The combined two-path system

`ai_processor.py` and `rag_chatbot.py` each create their own module-level
`openai_client`; the `_openai_quota_exceeded` flag exists only in
`ai_processor.py` and is neither imported nor written by `rag_chatbot.py`, so
a chatbot generation call leaves it untouched (reflected below by the
chat-query branch returning the flag unchanged). -/

/-- One generation call on either path: an article summarization
(`AIProcessor.summarize_article`) or a chat answer generation (the provider
portion of `RAGChatbot.query`, reached with a non-empty retrieval). -/
inductive GenCall where
  | summ (article : Article) (outcome : CallResult)
  | chat (userMessage : String) (contextDocs : List String) (outcome : CallResult)
deriving Repr

/-- One step of the combined system: thread the `_openai_quota_exceeded` flag
through a generation call on either path. -/
def sysStep (clientA clientR : Bool) (quotaExceeded : Bool) :
    GenCall → String × Bool
  | GenCall.summ a o => summarize_article clientA a o quotaExceeded
  | GenCall.chat u docs o => (queryGenerate clientR docs u o, quotaExceeded)

/-- A trace of generation calls over both paths, threading the flag. -/
def runSysCalls (clientA clientR : Bool) (quotaExceeded : Bool) :
    List GenCall → List String × Bool
  | [] => ([], quotaExceeded)
  | c :: rest =>
    let r := sysStep clientA clientR quotaExceeded c
    let rs := runSysCalls clientA clientR r.2 rest
    (r.1 :: rs.1, rs.2)

/-! ## Vector-index rebuild (`RAGChatbot.index_highlights`)

The ChromaDB collection is modelled as a list of `(id, document)` pairs (the
metadata dict is a projection of the same highlight and is elided).  The
`collection.delete(where=\x7b\x7d)` call sits in a `try/except` that only
logs, so its outcome is a parameter: on failure the old entries survive and
the new documents are inserted alongside them. -/

/-- The structured document text built for each highlight (the triple-quoted
f-string, including its indentation and surrounding newlines). -/
def docText (h : Highlight) : String :=
  "\n            Title: " ++ h.title ++
  "\n            Category: " ++ h.category ++
  "\n            Summary: " ++ h.summary ++
  "\n            Sources: " ++ pyJoin ", " h.sources ++
  "\n            Frequency: " ++ toString h.frequency ++
  "\n            Keywords: " ++ pyJoin ", " h.keywords ++
  "\n            "

/-- `RAGChatbot.index_highlights`: no-op on an empty list; otherwise attempt a
full clear (failure swallowed), then insert one document per highlight with
ids `highlight_<i>` assigned by position. -/
def index_highlights (collection : List (String × String))
    (deleteResult : Except String Unit) (highlights : List Highlight) :
    List (String × String) :=
  if highlights.isEmpty then collection
  else
    let cleared := match deleteResult with
      | Except.ok _ => []
      | Except.error _ => collection
    cleared ++ highlights.enum.map
      (fun p => ("highlight_" ++ toString p.1, docText p.2))

/-! ## Duplicate detection (`AIProcessor.detect_duplicates`)

The embedding + similarity-matrix + DBSCAN phase lives inside one `try`; its
result — a cluster label per article, `-1` for noise — is a parameter
(`Except.error` when any of those steps raises).  The marking loop
(lines 165–184 of `ai_processor.py`) is embedded literally: the insertion-
ordered `cluster_groups` dict becomes first-occurrence-ordered label
deduplication, each value holding the member indices in increasing order. -/

/-- Replace the article at an index (out-of-range indices leave the list
unchanged, as they cannot occur). -/
def updateAt (f : Article → Article) : List Article → Nat → List Article
  | [], _ => []
  | a :: rest, 0 => f a :: rest
  | a :: rest, i + 1 => a :: updateAt f rest i

/-- One iteration of the inner marking loop: mark `dupIdx` as a duplicate with
group id `gid`, then (re)stamp `gid` on the primary. -/
def markOne (gid : String) (primaryIdx dupIdx : Nat) (arts : List Article) :
    List Article :=
  updateAt (fun a => { a with duplicate_group_id := some gid })
    (updateAt
      (fun a => { a with is_duplicate := true, duplicate_group_id := some gid })
      arts dupIdx) primaryIdx

/-- Process one cluster: the first (lowest) member index is the primary; every
later member is marked a duplicate, and the shared group id
`group_<label>` is stamped on duplicates and primary alike. -/
def markCluster (clusterId : Int) (idxs : List Nat) (arts : List Article) :
    List Article :=
  match idxs with
  | [] => arts
  | primaryIdx :: dups =>
    dups.foldl (fun acc dupIdx =>
      markOne ("group_" ++ toString clusterId) primaryIdx dupIdx acc) arts

/-- The non-noise labels in order of first occurrence — the key order of the
insertion-ordered `cluster_groups` dict. -/
def dedupLabels (labels : List Int) : List Int :=
  labels.foldl (fun acc l => if l = -1 ∨ l ∈ acc then acc else acc ++ [l]) []

/-- All article indices carrying label `cl`, in increasing order — the value
stored under `cl` in `cluster_groups`. -/
def groupIndices (labels : List Int) (cl : Int) : List Nat :=
  (List.range labels.length).filter (fun i => labels.getD i (-1) == cl)

/-- The `cluster_groups` dict: non-noise labels in first-occurrence order,
each with its member indices. -/
def clusterGroups (labels : List Int) : List (Int × List Nat) :=
  (dedupLabels labels).map (fun cl => (cl, groupIndices labels cl))

/-- The marking loop over all clusters. -/
def markDuplicates (arts : List Article) (labels : List Int) : List Article :=
  (clusterGroups labels).foldl (fun acc p => markCluster p.1 p.2 acc) arts

/-- `AIProcessor.detect_duplicates`: fewer than two articles pass through
untouched; a raised exception in the embedding/clustering phase fails open;
otherwise the marking loop runs on the computed labels. -/
def detect_duplicates (arts : List Article)
    (clusterResult : Except String (List Int)) : List Article :=
  if arts.length < 2 then arts
  else
    match clusterResult with
    | Except.error _ => arts
    | Except.ok labels => markDuplicates arts labels

/-! ## DBSCAN semantics

`detect_duplicates` runs `sklearn.cluster.DBSCAN(eps, min_samples=2,
metric=precomputed)` on the clipped cosine-distance matrix
`d[i][j] = max(0, 1 - similarity[i][j])` (diagonal forced to `0`).  Two
documented consequences of `min_samples = 2` are captured as a predicate on
the returned labels (they hold of every sklearn run and suffice for the
claims): a point is noise exactly when no other point lies within `eps`
(with `min_samples=2` every non-isolated point is core), and two points
within `eps` of each other always land in the same cluster. -/

/-- The clipped distance derived from the similarity matrix. -/
def distOf (sim : Nat → Nat → ℚ) (i j : Nat) : ℚ :=
  if i = j then 0 else max 0 (1 - sim i j)

/-- The `eps`-neighbourhood relation on distinct points. -/
def adjOf (sim : Nat → Nat → ℚ) (eps : ℚ) (i j : Nat) : Prop :=
  i ≠ j ∧ distOf sim i j ≤ eps

/-- Validity of a DBSCAN (`min_samples = 2`) labelling of `n` points under
neighbourhood relation `adj`: one label per point; noise label `-1` exactly
for isolated points; neighbouring points share a label. -/
def DBSCANValid (n : Nat) (adj : Nat → Nat → Prop) (labels : List Int) : Prop :=
  labels.length = n ∧
  (∀ i, i < n → (labels.getD i (-1) = -1 ↔ ∀ j, j < n → ¬ adj i j)) ∧
  (∀ i, i < n → ∀ j, j < n → adj i j → labels.getD i (-1) = labels.getD j (-1))

instance (sim : Nat → Nat → ℚ) (eps : ℚ) (i j : Nat) :
    Decidable (adjOf sim eps i j) := by
  unfold adjOf; infer_instance

instance (n : Nat) (adj : Nat → Nat → Prop) [∀ i j, Decidable (adj i j)]
    (labels : List Int) : Decidable (DBSCANValid n adj labels) := by
  unfold DBSCANValid; infer_instance

/-- Original indices of the records a clustering run left unmarked
(`is_duplicate = false`) — the duplicate-free primaries-and-noise set. -/
def survivorIdx (arts : List Article) : List Nat :=
  (List.range arts.length).filter (fun i => !(arts.getD i default).is_duplicate)

/-! ## Highlight synthesis (`AIProcessor.generate_highlights`)

`self.summarize_article` is abstracted as a `summarize : Article → String`
parameter (the provider/gate interaction it hides is modelled separately
above; no claim below concerns the produced summary text). -/

/-- The grouping key: `article.duplicate_group_id or f"single_{article.url}"`
(Python `or`, so an absent **or empty** group id falls back to the URL key). -/
def groupKey (a : Article) : String :=
  match a.duplicate_group_id with
  | some s => if s = "" then "single_" ++ a.url else s
  | none => "single_" ++ a.url

/-- Group keys in order of first encounter while scanning the records — the
key order of the insertion-ordered `article_groups` dict. -/
def groupKeys (arts : List Article) : List String :=
  arts.foldl (fun acc a => if groupKey a ∈ acc then acc else acc ++ [groupKey a]) []

/-- The `article_groups` dict: first-encounter-ordered keys, each with the
member records in scan order. -/
def articleGroups (arts : List Article) : List (String × List Article) :=
  (groupKeys arts).map (fun k => (k, arts.filter (fun a => groupKey a == k)))

/-- `' '.join(f"{a.title} {a.content[:200]}" for a in group).lower()`. -/
def groupText (g : List Article) : String :=
  pyLower (pyJoin " " (g.map (fun a => a.title ++ " " ++ pyTake a.content 200)))

/-- Number of configured priority keywords occurring in the group text; each
occurrence adds `1.0` to the priority score. -/
def keywordHits (text : String) : Nat :=
  (PRIORITY_KEYWORDS.filter (fun k => containsSubstr text k)).length

/-- Build the `Highlight` for one group (`frequency = len(group)`,
`priority_score = hits + frequency * 0.5`, keywords only when the score is
positive, aggregated sources/authors/urls/dates).  Python truthiness: an
absent **or empty** existing summary triggers `summarize`; empty author
strings are dropped. -/
def mkHighlight (summarize : Article → String) (category : String)
    (g : List Article) : Highlight :=
  let frequency := g.length
  let score : ℚ := keywordHits (groupText g) + frequency * (1 / 2)
  let primary := g.headD default
  let summary :=
    match primary.summary with
    | some s => if s = "" then summarize primary else s
    | none => summarize primary
  { title := primary.title
    summary := summary
    category := category
    sources := g.map (fun a => a.source)
    authors := g.filterMap (fun a =>
      match a.author with
      | some s => if s = "" then none else some s
      | none => none)
    frequency := frequency
    priority_score := score
    keywords := if 0 < score then PRIORITY_KEYWORDS else []
    urls := g.map (fun a => a.url)
    published_dates := g.filterMap (fun a => a.published_date) }

/-- The highlight list before the final sort, one per group in
first-encounter order. -/
def unsortedHighlights (summarize : Article → String) (articles : List Article)
    (category : String) : List Highlight :=
  (articleGroups (articles.filter
    (fun a => a.category == some category && !a.is_duplicate))).map
    (fun p => mkHighlight summarize category p.2)

/-- The sort key `(x.priority_score, x.frequency)`. -/
def hKey (h : Highlight) : ℚ × ℚ := (h.priority_score, (h.frequency : ℚ))

/-- Lexicographic order on sort keys (Python tuple comparison). -/
def pairLe (a b : ℚ × ℚ) : Prop := a.1 < b.1 ∨ (a.1 = b.1 ∧ a.2 ≤ b.2)

instance (a b : ℚ × ℚ) : Decidable (pairLe a b) := by
  unfold pairLe; infer_instance

/-- The comparator realising `sort(key=..., reverse=True)`: `x` may precede
`y` exactly when `y`'s key is lexicographically ≤ `x`'s. -/
def highlightLE (x y : Highlight) : Bool := decide (pairLe (hKey y) (hKey x))

/-- `AIProcessor.generate_highlights`: filter to the category's non-duplicate
records, return `[]` when none remain, group, build one highlight per group,
and stably sort by `(priority_score, frequency)` descending (CPython's sort
is stable, also under `reverse=True`; `mergeSort` with the reversed
comparator is the same stable descending sort). -/
def generate_highlights (summarize : Article → String) (articles : List Article)
    (category : String) : List Highlight :=
  let categoryArticles := articles.filter
    (fun a => a.category == some category && !a.is_duplicate)
  if categoryArticles.isEmpty then []
  else
    ((articleGroups categoryArticles).map
      (fun p => mkHighlight summarize category p.2)).mergeSort highlightLE

/-! ## Concrete inputs used by witnesses and counterexamples -/

/-- First record of the spec's end-to-end example (categorised "sports"). -/
def exArticle1 : Article :=
  { title := "Team wins final"
    content := "The team won the final match yesterday. It was a great game. Fans celebrated."
    source := "abc", url := "https://ex.org/a1", category := some "sports" }

/-- Second record of the spec's end-to-end example (categorised "sports"). -/
def exArticle2 : Article :=
  { title := "Local team wins championship"
    content := "The local team won the championship final. It was a great game. Fans celebrated all night."
    source := "smh", url := "https://ex.org/a2", category := some "sports" }

/-- A similarity matrix for the example pair: distinct records have cosine
similarity `0.9 ≥ 0.85`. -/
def simEx (i j : Nat) : ℚ := if i = j then 1 else 9 / 10

/-- A record arriving already marked as duplicate but carrying no group id
(exercises `detect_duplicates` on adversarially pre-annotated input). -/
def preMarkedArticle : Article :=
  { title := "Stray record", content := "A body.", source := "abc"
    url := "https://ex.org/pre", category := some "sports", is_duplicate := true }

/-- A keyword-free categorised record used to witness tie-breaking. -/
def wArticleA : Article :=
  { title := "Quiet morning by the harbour"
    content := "Nothing much happened today at all."
    source := "abc", url := "https://ex.org/w1", category := some "sports"
    summary := some "A quiet day." }

/-- A second keyword-free record forming an equal-key group. -/
def wArticleB : Article :=
  { title := "Calm afternoon in the hills"
    content := "Still nothing much happened there."
    source := "smh", url := "https://ex.org/w2", category := some "sports"
    summary := some "A calm day." }

/-- A minimal highlight used to exercise `index_highlights`. -/
def exHighlight : Highlight :=
  { title := "Team wins final", summary := "The team won.", category := "sports" }

/-- A retrieved context document in the indexed template shape. -/
def exDoc : String :=
  "\n            Title: Team wins final\n            Summary: The team won.\n"

/-! ## Theorems -/

/-- From the Degraded state every summarization call returns the extractive
fallback (ignoring the provider outcome) and the state stays Degraded. -/
theorem runSummarize_degraded (clientPresent : Bool)
    (calls : List (Article × CallResult)) :
    (runSummarizeCalls clientPresent true calls).1
      = calls.map (fun c => extractive_summary c.1) ∧
    (runSummarizeCalls clientPresent true calls).2 = true := by
  induction calls with
  | nil => exact ⟨rfl, rfl⟩
  | cons c rest ih =>
    obtain ⟨a, o⟩ := c
    have hstep : summarize_article clientPresent a o true
        = (extractive_summary a, true) := by
      unfold summarize_article
      simp
    simp [runSummarizeCalls, hstep, ih.1, ih.2]

/-- C3: one quota/rate-limit error (provider present, gate Available) trips
the gate, and from then on every subsequent summarization call — for any
input or provider outcome — skips the provider, returns the extractive
fallback, and leaves the gate Degraded for ever. -/
theorem degraded_gate_permanent (clientPresent : Bool) (a : Article)
    (msg : String) (hq : isQuotaError msg = true)
    (calls : List (Article × CallResult)) :
    (summarize_article true a (CallResult.err msg) false).2 = true ∧
    (runSummarizeCalls clientPresent
      (summarize_article true a (CallResult.err msg) false).2 calls).1
      = calls.map (fun c => extractive_summary c.1) ∧
    (runSummarizeCalls clientPresent
      (summarize_article true a (CallResult.err msg) false).2 calls).2
      = true := by
  have htrip : (summarize_article true a (CallResult.err msg) false).2
      = true := by
    unfold summarize_article
    simp [hq]
  rw [htrip]
  exact ⟨rfl, (runSummarize_degraded clientPresent calls).1,
    (runSummarize_degraded clientPresent calls).2⟩

theorem degraded_gate_permanent_witness :
    isQuotaError "Error code: 429 - insufficient_quota" = true ∧
    (runSummarizeCalls true
      (summarize_article true exArticle1
        (CallResult.err "Error code: 429 - insufficient_quota") false).2
      [(exArticle2, CallResult.ok "provider text")]).1
      = [extractive_summary exArticle2] := by
  refine ⟨by decide, ?_⟩
  exact (degraded_gate_permanent true exArticle1
    "Error code: 429 - insufficient_quota" (by decide)
    [(exArticle2, CallResult.ok "provider text")]).2.1

/-- C4: an exception in the embedding/clustering phase fails open — the input
records come back unmodified. -/
theorem detect_duplicates_fail_open (arts : List Article) (e : String) :
    detect_duplicates arts (Except.error e) = arts := by
  unfold detect_duplicates
  split <;> rfl

/-- C1 is false on the code: in a two-call trace where the chat path receives
a quota error, the following summarization call still uses the provider
(returns the trimmed provider text, not the extractive fallback), because
`rag_chatbot.py` has no shared flag to trip. -/
theorem shared_gate_counterexample :
    (runSysCalls true true false
        [GenCall.chat "what happened" [exDoc]
            (CallResult.err "Error code: 429 - insufficient_quota"),
         GenCall.summ exArticle1 (CallResult.ok "Provider summary text.")]).1
      = [generate_fallback_response [exDoc] "what happened",
         "Provider summary text."] ∧
    (runSysCalls true true false
        [GenCall.chat "what happened" [exDoc]
            (CallResult.err "Error code: 429 - insufficient_quota"),
         GenCall.summ exArticle1 (CallResult.ok "Provider summary text.")]).2
      = false ∧
    "Provider summary text." ≠ extractive_summary exArticle1 := by
  refine ⟨by decide, by decide, by decide⟩

/-- C1 amended: the degrading gate belongs to the summarization path alone —
no chat call ever changes the flag (a quota error there only resolves that
call to the fallback), while on the summarization path a quota error trips
the flag permanently and any call in the Degraded state bypasses the
provider. -/
theorem gate_summarization_only (clientA clientR : Bool) (st : Bool)
    (u : String) (docs : List String) (o : CallResult) (a b : Article)
    (msg : String) (oc : CallResult) :
    ((sysStep clientA clientR st (GenCall.chat u docs o)).2 = st) ∧
    (isQuotaError msg = true →
      (sysStep clientA true st (GenCall.chat u docs (CallResult.err msg))).1
        = generate_fallback_response docs u) ∧
    (isQuotaError msg = true →
      (sysStep true clientR false (GenCall.summ a (CallResult.err msg))).2 = true) ∧
    ((sysStep clientA clientR true (GenCall.summ b oc)).1 = extractive_summary b ∧
      (sysStep clientA clientR true (GenCall.summ b oc)).2 = true) := by
  refine ⟨rfl, ?_, ?_, ?_⟩
  · intro h
    simp [sysStep, queryGenerate, h]
  · intro h
    simp [sysStep, summarize_article, h]
  · constructor <;> · simp [sysStep, summarize_article]

theorem gate_summarization_only_witness :
    isQuotaError "Error code: 429" = true ∧
    (sysStep true true false (GenCall.chat "hello there" [exDoc]
        (CallResult.err "Error code: 429"))).1
      = generate_fallback_response [exDoc] "hello there" ∧
    (sysStep true true false (GenCall.summ exArticle1
        (CallResult.err "Error code: 429"))).2 = true ∧
    (sysStep true true true (GenCall.summ exArticle1 (CallResult.ok "x"))).1
      = extractive_summary exArticle1 := by
  have h := gate_summarization_only true true false "hello there" [exDoc]
    (CallResult.err "Error code: 429") exArticle1 exArticle1
    "Error code: 429" (CallResult.ok "x")
  exact ⟨by decide, h.2.1 (by decide), h.2.2.1 (by decide), by decide⟩

/-- C8 is false as stated: a provider exception during `query` (non-empty
retrieval) is converted to the keyword fallback response, not to the fixed
apologetic message. -/
theorem query_provider_error_not_apology :
    query true (Except.ok ()) (Except.ok [exDoc]) "what happened"
        (CallResult.err "Error code: 429")
      = generate_fallback_response [exDoc] "what happened" ∧
    query true (Except.ok ()) (Except.ok [exDoc]) "what happened"
        (CallResult.err "Error code: 429") ≠ apologyMsg := by
  refine ⟨by decide, by decide⟩

/-- C8 amended: `query` is total (the embedding as a Lean function returns a
string on every input).  Empty retrieval yields the insufficient-information
message; an exception in the embedding or vector-search step yields the
apologetic message; a provider exception with a non-empty retrieval yields
the deterministic fallback response instead. -/
theorem query_total_characterisation (clientPresent : Bool) (e : String)
    (sr : Except String (List String)) (u : String) (o : CallResult)
    (docs : List String) (msg : String) :
    (query clientPresent (Except.error e) sr u o = apologyMsg) ∧
    (query clientPresent (Except.ok ()) (Except.error e) u o = apologyMsg) ∧
    (query clientPresent (Except.ok ()) (Except.ok []) u o = insufficientMsg) ∧
    (query true (Except.ok ()) (Except.ok docs) u (CallResult.err msg)
      = if docs.isEmpty then insufficientMsg
        else generate_fallback_response docs u) ∧
    (query false (Except.ok ()) (Except.ok docs) u o
      = if docs.isEmpty then insufficientMsg
        else generate_fallback_response docs u) := by
  refine ⟨rfl, rfl, rfl, ?_, ?_⟩
  · by_cases h : docs.isEmpty
    · simp [query, h]
    · simp [query, queryGenerate, h]
  · by_cases h : docs.isEmpty
    · simp [query, h]
    · simp [query, queryGenerate, h]

/-- C9 is false as stated: when the collection clear fails (the `delete` call
sits in a `try/except` that only logs), a stale id from a prior run survives
`index_highlights`, so the collection does not contain exactly the new
`highlight_<i>` ids. -/
theorem index_stale_id_lingers :
    ("stale_7", "old doc") ∈ index_highlights [("stale_7", "old doc")]
        (Except.error "where clause rejected") [exHighlight] ∧
    (index_highlights [("stale_7", "old doc")]
        (Except.error "where clause rejected") [exHighlight]).map Prod.fst
      ≠ ["highlight_0"] := by
  refine ⟨by decide, by decide⟩

/-- C9 amended: `index_highlights` is a no-op on an empty list; when the
clear succeeds the rebuilt collection holds exactly the ids
`highlight_0 … highlight_(n-1)`; when the clear fails the failure is
swallowed and the prior entries remain alongside the new documents. -/
theorem index_full_rebuild (coll : List (String × String))
    (d : Except String Unit) (hs : List Highlight) (e : String) :
    (index_highlights coll d [] = coll) ∧
    (hs ≠ [] → (index_highlights coll (Except.ok ()) hs).map Prod.fst
      = (List.range hs.length).map (fun i => "highlight_" ++ toString i)) ∧
    (hs ≠ [] → index_highlights coll (Except.error e) hs
      = coll ++ hs.enum.map
          (fun p => ("highlight_" ++ toString p.1, docText p.2))) := by
  refine ⟨rfl, ?_, ?_⟩
  · intro h
    unfold index_highlights
    rw [if_neg (by simpa using h)]
    simp only [List.nil_append, List.map_map]
    have h1 : (List.range hs.length).map (fun i => "highlight_" ++ toString i)
        = (hs.enum.map Prod.fst).map (fun i => "highlight_" ++ toString i) := by
      rw [List.enum_eq_enumFrom, List.enumFrom_map_fst, ← List.range_eq_range']
    rw [h1, List.map_map]
    rfl
  · intro h
    unfold index_highlights
    rw [if_neg (by simpa using h)]

theorem index_full_rebuild_witness :
    (index_highlights [("stale_7", "old doc")] (Except.ok ()) [] = [("stale_7", "old doc")]) ∧
    (index_highlights [("stale_7", "old doc")] (Except.ok ()) [exHighlight, exHighlight]).map Prod.fst
      = (List.range 2).map (fun i => "highlight_" ++ toString i) ∧
    (index_highlights [("stale_7", "old doc")] (Except.error "bad") [exHighlight]
      = [("stale_7", "old doc")] ++ [exHighlight].enum.map
          (fun p => ("highlight_" ++ toString p.1, docText p.2))) := by
  have h := index_full_rebuild [("stale_7", "old doc")] (Except.ok ())
    [exHighlight, exHighlight] "bad"
  have h2 := index_full_rebuild [("stale_7", "old doc")] (Except.error "bad")
    [exHighlight] "bad"
  exact ⟨h.1, h.2.1 (by decide), h2.2.2 (by decide)⟩

/-! ### Helper lemmas for highlight synthesis -/

/-- Unfolding `generate_highlights` to the stable sort of the unsorted list:
the empty-filter early return coincides with sorting the empty list. -/
theorem generate_highlights_eq (s : Article → String) (arts : List Article)
    (cat : String) :
    generate_highlights s arts cat
      = (unsortedHighlights s arts cat).mergeSort highlightLE := by
  unfold generate_highlights unsortedHighlights
  by_cases h :
    (arts.filter (fun a => a.category == some cat && !a.is_duplicate)).isEmpty
  · rw [if_pos h]
    rw [List.isEmpty_iff] at h
    rw [h]
    rw [show articleGroups ([] : List Article) = [] from rfl]
    rw [List.map_nil, List.mergeSort_nil]
  · rw [if_neg h]

theorem mem_groupKeys_aux (k : String) :
    ∀ (l : List Article) (acc : List String),
      k ∈ l.foldl (fun acc a =>
          if groupKey a ∈ acc then acc else acc ++ [groupKey a]) acc →
      k ∈ acc ∨ ∃ a ∈ l, groupKey a = k := by
  intro l
  induction l with
  | nil => intro acc h; exact Or.inl h
  | cons a rest ih =>
    intro acc h
    rcases ih _ h with h1 | ⟨b, hb, hk⟩
    · by_cases hmem : groupKey a ∈ acc
      · simp only [if_pos hmem] at h1
        exact Or.inl h1
      · simp only [if_neg hmem] at h1
        rcases List.mem_append.mp h1 with h2 | h2
        · exact Or.inl h2
        · exact Or.inr ⟨a, List.mem_cons_self a rest,
            (List.mem_singleton.mp h2).symm⟩
    · exact Or.inr ⟨b, List.mem_cons_of_mem a hb, hk⟩

theorem mem_groupKeys {k : String} {l : List Article} (h : k ∈ groupKeys l) :
    ∃ a ∈ l, groupKey a = k := by
  rcases mem_groupKeys_aux k l [] h with h1 | h1
  · cases h1
  · exact h1

/-- Every group produced by `articleGroups` is non-empty and consists of the
records with that key. -/
theorem articleGroups_nonempty {l : List Article} {p : String × List Article}
    (h : p ∈ articleGroups l) : p.2 ≠ [] := by
  unfold articleGroups at h
  rcases List.mem_map.mp h with ⟨k, hk, rfl⟩
  obtain ⟨a, ha, hka⟩ := mem_groupKeys hk
  exact List.ne_nil_of_mem (List.mem_filter.mpr ⟨ha, by simp [hka]⟩)

/-- Membership in the synthesized highlight list comes from a non-empty
record group. -/
theorem mem_generate_highlights {s : Article → String} {arts : List Article}
    {cat : String} {h : Highlight} (hm : h ∈ generate_highlights s arts cat) :
    ∃ g : List Article, g ≠ [] ∧ h = mkHighlight s cat g := by
  rw [generate_highlights_eq, List.mem_mergeSort] at hm
  unfold unsortedHighlights at hm
  rcases List.mem_map.mp hm with ⟨p, hp, rfl⟩
  exact ⟨p.2, articleGroups_nonempty hp, rfl⟩

theorem pairLe_trans {a b c : ℚ × ℚ} (h1 : pairLe a b) (h2 : pairLe b c) :
    pairLe a c := by
  rcases h1 with h1 | ⟨h1, h1'⟩ <;> rcases h2 with h2 | ⟨h2, h2'⟩
  · exact Or.inl (lt_trans h1 h2)
  · exact Or.inl (h2 ▸ h1)
  · exact Or.inl (h1 ▸ h2)
  · exact Or.inr ⟨h1.trans h2, le_trans h1' h2'⟩

theorem pairLe_total (a b : ℚ × ℚ) : pairLe a b ∨ pairLe b a := by
  rcases lt_trichotomy a.1 b.1 with h | h | h
  · exact Or.inl (Or.inl h)
  · rcases le_total a.2 b.2 with h2 | h2
    · exact Or.inl (Or.inr ⟨h, h2⟩)
    · exact Or.inr (Or.inr ⟨h.symm, h2⟩)
  · exact Or.inr (Or.inl h)

theorem highlightLE_trans (x y z : Highlight) (h1 : highlightLE x y)
    (h2 : highlightLE y z) : highlightLE x z := by
  unfold highlightLE at h1 h2 ⊢
  exact decide_eq_true (pairLe_trans (of_decide_eq_true h2) (of_decide_eq_true h1))

theorem highlightLE_total (x y : Highlight) :
    highlightLE x y || highlightLE y x := by
  unfold highlightLE
  rcases pairLe_total (hKey y) (hKey x) with h | h <;>
    simp [decide_eq_true h]

/-! ### C7 -/

/-- C7: the synthesized highlight list is sorted non-increasingly by the
lexicographic key `(priority_score, frequency)`, and the sort is stable:
two highlights with equal keys keep the relative (group first-encounter)
order they have in the unsorted list. -/
theorem highlights_sorted_stable (s : Article → String) (arts : List Article)
    (cat : String) :
    (generate_highlights s arts cat).Pairwise
      (fun a b => pairLe (hKey b) (hKey a)) ∧
    (∀ a b : Highlight, hKey a = hKey b →
      List.Sublist [a, b] (unsortedHighlights s arts cat) →
      List.Sublist [a, b] (generate_highlights s arts cat)) := by
  constructor
  · rw [generate_highlights_eq]
    have hs := List.sorted_mergeSort highlightLE_trans highlightLE_total
      (unsortedHighlights s arts cat)
    exact hs.imp (fun hle => of_decide_eq_true hle)
  · intro a b hk hsub
    rw [generate_highlights_eq]
    apply List.sublist_mergeSort highlightLE_trans highlightLE_total _ hsub
    have : highlightLE a b := by
      unfold highlightLE
      exact decide_eq_true (hk ▸ (Or.inr ⟨rfl, le_refl _⟩))
    exact List.pairwise_pair.mpr this

theorem highlights_sorted_stable_witness :
    hKey (mkHighlight extractive_summary "sports" [wArticleA])
      = hKey (mkHighlight extractive_summary "sports" [wArticleB]) ∧
    List.Sublist
      [mkHighlight extractive_summary "sports" [wArticleA],
       mkHighlight extractive_summary "sports" [wArticleB]]
      (generate_highlights extractive_summary [wArticleA, wArticleB] "sports") := by
  have e1 : keywordHits (groupText [wArticleA]) = 0 := by decide
  have e2 : keywordHits (groupText [wArticleB]) = 0 := by decide
  have hk : hKey (mkHighlight extractive_summary "sports" [wArticleA])
      = hKey (mkHighlight extractive_summary "sports" [wArticleB]) := by
    unfold hKey mkHighlight
    simp [e1, e2]
  refine ⟨hk, ?_⟩
  have hu : unsortedHighlights extractive_summary [wArticleA, wArticleB] "sports"
      = [mkHighlight extractive_summary "sports" [wArticleA],
         mkHighlight extractive_summary "sports" [wArticleB]] := by
    unfold unsortedHighlights articleGroups
    rfl
  exact (highlights_sorted_stable extractive_summary [wArticleA, wArticleB]
    "sports").2 _ _ hk (hu ▸ List.Sublist.refl _)

/-! ### C10 -/

/-- C10: every synthesized highlight has
`priority_score ≥ frequency * 0.5 ≥ 0.5 > 0`, so the `else empty` branch of
the keywords rule never runs: `keywords` is always the full configured
priority-keyword list. -/
theorem keywords_always_full (s : Article → String) (arts : List Article)
    (cat : String) :
    ∀ h ∈ generate_highlights s arts cat,
      (h.frequency : ℚ) * (1 / 2) ≤ h.priority_score ∧
      (1 : ℚ) / 2 ≤ (h.frequency : ℚ) * (1 / 2) ∧
      0 < h.priority_score ∧
      h.keywords = PRIORITY_KEYWORDS := by
  intro h hm
  obtain ⟨g, hg, rfl⟩ := mem_generate_highlights hm
  have hfreq : (mkHighlight s cat g).frequency = g.length := rfl
  have hlen : 1 ≤ g.length := by
    rcases g with _ | ⟨a, g'⟩
    · exact absurd rfl hg
    · simp
  have hscore : (mkHighlight s cat g).priority_score
      = (keywordHits (groupText g) : ℚ) + (g.length : ℚ) * (1 / 2) := rfl
  have h1 : ((mkHighlight s cat g).frequency : ℚ) * (1 / 2)
      ≤ (mkHighlight s cat g).priority_score := by
    rw [hscore, hfreq]
    have : (0 : ℚ) ≤ (keywordHits (groupText g) : ℚ) := by positivity
    linarith
  have h2 : (1 : ℚ) / 2 ≤ ((mkHighlight s cat g).frequency : ℚ) * (1 / 2) := by
    rw [hfreq]
    have : (1 : ℚ) ≤ (g.length : ℚ) := by exact_mod_cast hlen
    linarith
  have h3 : 0 < (mkHighlight s cat g).priority_score := by
    have : (0 : ℚ) < 1 / 2 := by norm_num
    linarith
  refine ⟨h1, h2, h3, ?_⟩
  show (if 0 < (keywordHits (groupText g) : ℚ) + (g.length : ℚ) * (1 / 2)
      then PRIORITY_KEYWORDS else []) = PRIORITY_KEYWORDS
  rw [if_pos]
  rw [hscore] at h3
  exact h3

theorem keywords_always_full_witness :
    ((generate_highlights extractive_summary [wArticleA] "sports").headD
      default).keywords = PRIORITY_KEYWORDS := by
  have hq : generate_highlights extractive_summary [wArticleA] "sports"
      = [mkHighlight extractive_summary "sports" [wArticleA]] := by
    rw [generate_highlights_eq]
    have hu : unsortedHighlights extractive_summary [wArticleA] "sports"
        = [mkHighlight extractive_summary "sports" [wArticleA]] := by
      unfold unsortedHighlights articleGroups
      rfl
    rw [hu, List.mergeSort_singleton]
  have hm : (generate_highlights extractive_summary [wArticleA] "sports").headD
        default ∈ generate_highlights extractive_summary [wArticleA] "sports" := by
    rw [hq]
    exact List.mem_singleton.mpr rfl
  exact (keywords_always_full extractive_summary [wArticleA] "sports" _ hm).2.2.2

/-! ### C2 -/

/-- The (essentially unique) valid DBSCAN labelling of the two spec-example
records under their 0.9 cosine similarity: one shared cluster. -/
theorem dbscanValid_example :
    DBSCANValid 2 (adjOf simEx (1 - SIMILARITY_THRESHOLD)) [0, 0] := by
  refine ⟨rfl, ?_, ?_⟩
  · intro i hi
    constructor
    · intro h
      interval_cases i <;> simp_all
    · intro h
      exfalso
      interval_cases i
      · exact h 1 (by norm_num)
          ⟨by norm_num, by norm_num [distOf, simEx, SIMILARITY_THRESHOLD]⟩
      · exact h 0 (by norm_num)
          ⟨by norm_num, by norm_num [distOf, simEx, SIMILARITY_THRESHOLD]⟩
  · intro i hi j hj _
    interval_cases i <;> interval_cases j <;> rfl

/-- C2 is false on the code for its own end-to-end example: the two example
records do land in one cluster (a valid DBSCAN labelling of their similarity
is `[0, 0]`) and share `duplicateGroupId = "group_0"`, but `synthesize`
filters out the duplicate record before grouping, so the single resulting
highlight has `frequency = 1`, not `2`. -/
theorem example_frequency_counterexample :
    DBSCANValid 2 (adjOf simEx (1 - SIMILARITY_THRESHOLD)) [0, 0] ∧
    (detect_duplicates [exArticle1, exArticle2] (Except.ok [0, 0])).map
        Article.duplicate_group_id = [some "group_0", some "group_0"] ∧
    (generate_highlights extractive_summary
        (detect_duplicates [exArticle1, exArticle2] (Except.ok [0, 0]))
        "sports").map Highlight.frequency = [1] ∧
    (generate_highlights extractive_summary
        (detect_duplicates [exArticle1, exArticle2] (Except.ok [0, 0]))
        "sports").map Highlight.frequency ≠ [2] := by
  have hvalid := dbscanValid_example
  have hfreq : (generate_highlights extractive_summary
      (detect_duplicates [exArticle1, exArticle2] (Except.ok [0, 0]))
      "sports").map Highlight.frequency = [1] := by
    have hperm : List.Perm
        ((generate_highlights extractive_summary
          (detect_duplicates [exArticle1, exArticle2] (Except.ok [0, 0]))
          "sports").map Highlight.frequency)
        ((unsortedHighlights extractive_summary
            (detect_duplicates [exArticle1, exArticle2] (Except.ok [0, 0]))
            "sports").map Highlight.frequency) := by
      rw [generate_highlights_eq]
      exact (List.mergeSort_perm _ _).map _
    have hu : (unsortedHighlights extractive_summary
        (detect_duplicates [exArticle1, exArticle2] (Except.ok [0, 0]))
        "sports").map Highlight.frequency = [1] := by decide
    rw [hu] at hperm
    exact hperm.eq_singleton
  refine ⟨hvalid, by decide, hfreq, ?_⟩
  rw [hfreq]
  decide

/-- C2 amended: `frequency` equals the number of records in the highlight's
group *after* duplicate removal (one list entry per backing record in
`sources`/`urls`), and on the spec's two-record example — where both records
share `duplicateGroupId = "group_0"` — `synthesize("sports")` returns exactly
one highlight with `frequency = 1`, the duplicate having been filtered out
before grouping. -/
theorem highlight_frequency_counts (s : Article → String) (arts : List Article)
    (cat : String) :
    (∀ h ∈ generate_highlights s arts cat,
      h.frequency = h.sources.length ∧ h.frequency = h.urls.length ∧
      1 ≤ h.frequency) ∧
    (detect_duplicates [exArticle1, exArticle2] (Except.ok [0, 0])).map
        Article.duplicate_group_id = [some "group_0", some "group_0"] ∧
    (unsortedHighlights extractive_summary
        (detect_duplicates [exArticle1, exArticle2] (Except.ok [0, 0]))
        "sports").map Highlight.frequency = [1] := by
  refine ⟨?_, by decide, by decide⟩
  intro h hm
  obtain ⟨g, hg, rfl⟩ := mem_generate_highlights hm
  refine ⟨by simp [mkHighlight], by simp [mkHighlight], ?_⟩
  show 1 ≤ g.length
  rcases g with _ | ⟨a, g'⟩
  · exact absurd rfl hg
  · simp

theorem highlight_frequency_counts_witness :
    ((generate_highlights extractive_summary [wArticleA] "sports").headD
        default).frequency
      = ((generate_highlights extractive_summary [wArticleA] "sports").headD
        default).sources.length := by
  have hq : generate_highlights extractive_summary [wArticleA] "sports"
      = [mkHighlight extractive_summary "sports" [wArticleA]] := by
    rw [generate_highlights_eq]
    have hu : unsortedHighlights extractive_summary [wArticleA] "sports"
        = [mkHighlight extractive_summary "sports" [wArticleA]] := by
      unfold unsortedHighlights articleGroups
      rfl
    rw [hu, List.mergeSort_singleton]
  have hm : (generate_highlights extractive_summary [wArticleA] "sports").headD
        default ∈ generate_highlights extractive_summary [wArticleA] "sports" := by
    rw [hq]
    exact List.mem_singleton.mpr rfl
  exact ((highlight_frequency_counts extractive_summary [wArticleA] "sports").1
    _ hm).1
/-! ### Positional lemmas for the marking loop -/

theorem length_updateAt (f : Article → Article) :
    ∀ (l : List Article) (i : Nat), (updateAt f l i).length = l.length
  | [], _ => rfl
  | _ :: _, 0 => rfl
  | a :: rest, i + 1 => by
    show (a :: updateAt f rest i).length = (a :: rest).length
    simp [length_updateAt f rest i]

theorem getD_updateAt_self (f : Article → Article) (d : Article) :
    ∀ (l : List Article) (i : Nat), i < l.length →
      (updateAt f l i).getD i d = f (l.getD i d)
  | [], _, h => absurd h (by simp)
  | _ :: _, 0, _ => rfl
  | a :: rest, i + 1, h => by
    show (a :: updateAt f rest i).getD (i + 1) d = f ((a :: rest).getD (i + 1) d)
    rw [List.getD_cons_succ, List.getD_cons_succ]
    exact getD_updateAt_self f d rest i (by simpa using h)

theorem getD_updateAt_ne (f : Article → Article) (d : Article) :
    ∀ (l : List Article) (i j : Nat), i ≠ j →
      (updateAt f l i).getD j d = l.getD j d
  | [], _, _, _ => rfl
  | _ :: _, 0, 0, hne => absurd rfl hne
  | a :: rest, 0, j + 1, _ => by
    show (f a :: rest).getD (j + 1) d = (a :: rest).getD (j + 1) d
    rw [List.getD_cons_succ, List.getD_cons_succ]
  | _ :: _, i + 1, 0, _ => rfl
  | a :: rest, i + 1, j + 1, hne => by
    show (a :: updateAt f rest i).getD (j + 1) d = (a :: rest).getD (j + 1) d
    rw [List.getD_cons_succ, List.getD_cons_succ]
    exact getD_updateAt_ne f d rest i j (fun h => hne (by rw [h]))

theorem length_markOne (gid : String) (p q : Nat) (l : List Article) :
    (markOne gid p q l).length = l.length := by
  unfold markOne
  rw [length_updateAt, length_updateAt]

theorem getD_markOne_ne (gid : String) (p q : Nat) (d : Article) {i : Nat}
    (hp : i ≠ p) (hq : i ≠ q) (l : List Article) :
    (markOne gid p q l).getD i d = l.getD i d := by
  unfold markOne
  rw [getD_updateAt_ne _ _ _ p i (fun h => hp h.symm),
    getD_updateAt_ne _ _ _ q i (fun h => hq h.symm)]

theorem getD_markOne_dup (gid : String) (p q : Nat) (d : Article) (hqp : q ≠ p)
    (l : List Article) (hq : q < l.length) :
    (markOne gid p q l).getD q d
      = { l.getD q d with
          is_duplicate := true
          duplicate_group_id := some gid } := by
  unfold markOne
  rw [getD_updateAt_ne _ _ _ p q (fun h => hqp h.symm)]
  exact getD_updateAt_self _ _ l q hq

theorem getD_markOne_primary (gid : String) (p q : Nat) (d : Article)
    (hpq : p ≠ q) (l : List Article) (hp : p < l.length) :
    (markOne gid p q l).getD p d
      = { l.getD p d with duplicate_group_id := some gid } := by
  unfold markOne
  rw [getD_updateAt_self _ _ _ p (by rw [length_updateAt]; exact hp)]
  rw [getD_updateAt_ne _ _ _ q p (fun h => hpq h.symm)]

theorem length_foldl_markOne (gid : String) (p : Nat) :
    ∀ (dups : List Nat) (arts : List Article),
      (dups.foldl (fun acc d => markOne gid p d acc) arts).length = arts.length
  | [], _ => rfl
  | d :: rest, arts => by
    rw [List.foldl_cons, length_foldl_markOne gid p rest, length_markOne]

theorem getD_foldl_markOne_ne (gid : String) (p : Nat) (d0 : Article) {i : Nat}
    (hp : i ≠ p) :
    ∀ (dups : List Nat) (arts : List Article), i ∉ dups →
      (dups.foldl (fun acc d => markOne gid p d acc) arts).getD i d0
        = arts.getD i d0
  | [], _, _ => rfl
  | d :: rest, arts, hmem => by
    rw [List.foldl_cons,
      getD_foldl_markOne_ne gid p d0 hp rest _
        (fun h => hmem (List.mem_cons_of_mem d h))]
    exact getD_markOne_ne gid p d d0 hp
      (fun h => hmem (h ▸ List.mem_cons_self d rest)) arts

theorem getD_foldl_markOne_dup (gid : String) (p : Nat) (d0 : Article) {i : Nat}
    (hp : i ≠ p) :
    ∀ (dups : List Nat) (arts : List Article), i ∈ dups → dups.Nodup →
      i < arts.length →
      (dups.foldl (fun acc d => markOne gid p d acc) arts).getD i d0
        = { arts.getD i d0 with
            is_duplicate := true
            duplicate_group_id := some gid }
  | [], _, hmem, _, _ => absurd hmem (List.not_mem_nil i)
  | d :: rest, arts, hmem, hnodup, hlen => by
    rw [List.foldl_cons]
    rcases List.mem_cons.mp hmem with rfl | hmem'
    · rw [getD_foldl_markOne_ne gid p d0 hp rest _
        (List.nodup_cons.mp hnodup).1]
      exact getD_markOne_dup gid p i d0 hp arts hlen
    · have hne_d : i ≠ d := by
        intro h
        exact (List.nodup_cons.mp hnodup).1 (h ▸ hmem')
      rw [getD_foldl_markOne_dup gid p d0 hp rest _ hmem'
        (List.nodup_cons.mp hnodup).2 (by rw [length_markOne]; exact hlen)]
      rw [getD_markOne_ne gid p d d0 hp hne_d]

theorem getD_foldl_markOne_primary (gid : String) (d0 : Article) {p : Nat} :
    ∀ (dups : List Nat) (arts : List Article), dups ≠ [] → p ∉ dups →
      p < arts.length →
      (dups.foldl (fun acc d => markOne gid p d acc) arts).getD p d0
        = { arts.getD p d0 with duplicate_group_id := some gid }
  | [], _, h, _, _ => absurd rfl h
  | [d], arts, _, hpd, hlen => by
    rw [List.foldl_cons, List.foldl_nil]
    exact getD_markOne_primary gid p d d0
      (fun h => hpd (h ▸ List.mem_cons_self d [])) arts hlen
  | d :: d' :: rest, arts, _, hpd, hlen => by
    rw [List.foldl_cons]
    rw [getD_foldl_markOne_primary gid d0 (d' :: rest) _ (by simp)
      (fun h => hpd (List.mem_cons_of_mem d h))
      (by rw [length_markOne]; exact hlen)]
    rw [getD_markOne_primary gid p d d0
      (fun h => hpd (h ▸ List.mem_cons_self d _)) arts hlen]

theorem length_markCluster (cl : Int) (idxs : List Nat) (arts : List Article) :
    (markCluster cl idxs arts).length = arts.length := by
  cases idxs with
  | nil => rfl
  | cons p dups =>
    unfold markCluster
    exact length_foldl_markOne _ p dups arts

theorem getD_markCluster_ne (cl : Int) (d0 : Article) {i : Nat}
    (idxs : List Nat) (arts : List Article) (hmem : i ∉ idxs) :
    (markCluster cl idxs arts).getD i d0 = arts.getD i d0 := by
  cases idxs with
  | nil => rfl
  | cons p dups =>
    unfold markCluster
    exact getD_foldl_markOne_ne _ p d0
      (fun h : i = p => hmem (by rw [h]; exact List.mem_cons_self p dups))
      dups arts (fun h => hmem (List.mem_cons_of_mem p h))

theorem getD_markCluster_head (cl : Int) (d0 : Article) {p : Nat}
    (dups : List Nat) (arts : List Article) (hne : dups ≠ [])
    (hnodup : (p :: dups).Nodup) (hlen : p < arts.length) :
    (markCluster cl (p :: dups) arts).getD p d0
      = { arts.getD p d0 with
          duplicate_group_id := some ("group_" ++ toString cl) } := by
  unfold markCluster
  exact getD_foldl_markOne_primary _ d0 dups arts hne
    (List.nodup_cons.mp hnodup).1 hlen

theorem getD_markCluster_dup (cl : Int) (d0 : Article) {p i : Nat}
    (dups : List Nat) (arts : List Article) (hi : i ∈ dups)
    (hnodup : (p :: dups).Nodup) (hlen : i < arts.length) :
    (markCluster cl (p :: dups) arts).getD i d0
      = { arts.getD i d0 with
          is_duplicate := true
          duplicate_group_id := some ("group_" ++ toString cl) } := by
  unfold markCluster
  have hip : i ≠ p := fun h => (List.nodup_cons.mp hnodup).1 (h ▸ hi)
  exact getD_foldl_markOne_dup _ p d0 hip dups arts hi
    (List.nodup_cons.mp hnodup).2 hlen

/-- `markCluster` at a shared position only depends on the article stored
there. -/
theorem getD_markCluster_congr (cl : Int) (d0 : Article) {i : Nat}
    (idxs : List Nat) (hnd : idxs.Nodup) (hi : i ∈ idxs)
    (arts arts' : List Article) (hlen : arts'.length = arts.length)
    (hil : i < arts.length) (heq : arts'.getD i d0 = arts.getD i d0) :
    (markCluster cl idxs arts').getD i d0
      = (markCluster cl idxs arts).getD i d0 := by
  cases idxs with
  | nil => cases hi
  | cons p dups =>
    rcases List.mem_cons.mp hi with rfl | hdup
    · cases dups with
      | nil =>
        show (markCluster cl [i] arts').getD i d0
          = (markCluster cl [i] arts).getD i d0
        exact heq
      | cons d' rest =>
        rw [getD_markCluster_head cl d0 _ arts' (by simp) hnd
            (by rw [hlen]; exact hil),
          getD_markCluster_head cl d0 _ arts (by simp) hnd hil, heq]
    · rw [getD_markCluster_dup cl d0 dups arts' hdup hnd
          (by rw [hlen]; exact hil),
        getD_markCluster_dup cl d0 dups arts hdup hnd hil, heq]

/-! ### `dedupLabels` and `groupIndices` -/

theorem mem_dedupLabels_aux (cl : Int) :
    ∀ (labels : List Int) (acc : List Int),
      (cl ∈ labels.foldl
        (fun acc l => if l = -1 ∨ l ∈ acc then acc else acc ++ [l]) acc
      ↔ cl ∈ acc ∨ (cl ∈ labels ∧ cl ≠ -1))
  | [], acc => by simp
  | l :: rest, acc => by
    rw [List.foldl_cons, mem_dedupLabels_aux cl rest _]
    by_cases h : l = -1 ∨ l ∈ acc
    · rw [if_pos h]
      constructor
      · rintro (h1 | h2)
        · exact Or.inl h1
        · exact Or.inr ⟨List.mem_cons_of_mem l h2.1, h2.2⟩
      · rintro (h1 | ⟨hmem, hne⟩)
        · exact Or.inl h1
        · rcases List.mem_cons.mp hmem with rfl | h2
          · rcases h with h | h
            · exact absurd h hne
            · exact Or.inl h
          · exact Or.inr ⟨h2, hne⟩
    · rw [if_neg h]
      push_neg at h
      constructor
      · rintro (h1 | h2)
        · rcases List.mem_append.mp h1 with h3 | h3
          · exact Or.inl h3
          · have h4 : cl = l := List.mem_singleton.mp h3
            subst h4
            exact Or.inr ⟨List.mem_cons_self _ _, h.1⟩
        · exact Or.inr ⟨List.mem_cons_of_mem l h2.1, h2.2⟩
      · rintro (h1 | ⟨hmem, hne⟩)
        · exact Or.inl (List.mem_append.mpr (Or.inl h1))
        · rcases List.mem_cons.mp hmem with rfl | h2
          · exact Or.inl (List.mem_append.mpr
              (Or.inr (List.mem_singleton.mpr rfl)))
          · exact Or.inr ⟨h2, hne⟩

theorem mem_dedupLabels {cl : Int} {labels : List Int} :
    cl ∈ dedupLabels labels ↔ cl ∈ labels ∧ cl ≠ -1 := by
  unfold dedupLabels
  rw [mem_dedupLabels_aux]
  simp

theorem nodup_dedupLabels_aux :
    ∀ (labels : List Int) (acc : List Int), acc.Nodup →
      (labels.foldl
        (fun acc l => if l = -1 ∨ l ∈ acc then acc else acc ++ [l]) acc).Nodup
  | [], _, h => h
  | l :: rest, acc, h => by
    rw [List.foldl_cons]
    apply nodup_dedupLabels_aux rest
    by_cases hc : l = -1 ∨ l ∈ acc
    · rw [if_pos hc]
      exact h
    · rw [if_neg hc]
      push_neg at hc
      simp [List.nodup_append, h, hc.2]

theorem nodup_dedupLabels (labels : List Int) : (dedupLabels labels).Nodup :=
  nodup_dedupLabels_aux labels [] List.nodup_nil

theorem mem_groupIndices {labels : List Int} {cl : Int} {i : Nat} :
    i ∈ groupIndices labels cl
      ↔ i < labels.length ∧ labels.getD i (-1) = cl := by
  unfold groupIndices
  simp [List.mem_filter, List.mem_range]

theorem nodup_groupIndices (labels : List Int) (cl : Int) :
    (groupIndices labels cl).Nodup :=
  (List.nodup_range _).filter _

theorem sorted_groupIndices (labels : List Int) (cl : Int) :
    (groupIndices labels cl).Pairwise (· < ·) :=
  (List.sorted_lt_range _).filter _

theorem length_groupIndices_le (labels : List Int) (cl : Int) :
    (groupIndices labels cl).length ≤ labels.length := by
  have h : List.Sublist ((List.range labels.length).filter
      (fun i => labels.getD i (-1) == cl)) (List.range labels.length) :=
    List.filter_sublist _
  have h2 := h.length_le
  rw [List.length_range] at h2
  unfold groupIndices
  exact h2

/-! ### `markDuplicates` characterisation -/

theorem getD_foldl_markCluster_frame (d0 : Article) {i : Nat} :
    ∀ (L : List (Int × List Nat)) (arts : List Article),
      (∀ q ∈ L, i ∉ q.2) →
      (L.foldl (fun acc q => markCluster q.1 q.2 acc) arts).getD i d0
        = arts.getD i d0
  | [], _, _ => rfl
  | q :: rest, arts, h => by
    rw [List.foldl_cons,
      getD_foldl_markCluster_frame d0 rest _
        (fun r hr => h r (List.mem_cons_of_mem q hr))]
    exact getD_markCluster_ne q.1 d0 q.2 arts (h q (List.mem_cons_self q rest))

theorem length_foldl_markCluster :
    ∀ (L : List (Int × List Nat)) (arts : List Article),
      (L.foldl (fun acc q => markCluster q.1 q.2 acc) arts).length
        = arts.length
  | [], _ => rfl
  | q :: rest, arts => by
    rw [List.foldl_cons, length_foldl_markCluster rest, length_markCluster]

theorem length_markDuplicates (arts : List Article) (labels : List Int) :
    (markDuplicates arts labels).length = arts.length :=
  length_foldl_markCluster _ arts

/-- A noise-labelled position is never touched. -/
theorem getD_markDuplicates_noise (arts : List Article) (labels : List Int)
    (d0 : Article) {i : Nat} (h : labels.getD i (-1) = -1) :
    (markDuplicates arts labels).getD i d0 = arts.getD i d0 := by
  unfold markDuplicates
  apply getD_foldl_markCluster_frame
  intro q hq
  unfold clusterGroups at hq
  rcases List.mem_map.mp hq with ⟨c, hc, rfl⟩
  intro hmem
  have h2 := (mem_groupIndices.mp hmem).2
  rw [h] at h2
  exact (mem_dedupLabels.mp hc).2 h2.symm

/-- At a clustered position, `markDuplicates` acts exactly as processing the
position's own cluster on the original list. -/
theorem getD_markDuplicates_cluster (arts : List Article) (labels : List Int)
    (d0 : Article) {i : Nat} {cl : Int}
    (hlen : labels.length = arts.length) (hi : i < labels.length)
    (hcl : labels.getD i (-1) = cl) (hne : cl ≠ -1) :
    (markDuplicates arts labels).getD i d0
      = (markCluster cl (groupIndices labels cl) arts).getD i d0 := by
  have hiG : i ∈ groupIndices labels cl := mem_groupIndices.mpr ⟨hi, hcl⟩
  have hclmem : cl ∈ dedupLabels labels := by
    apply mem_dedupLabels.mpr
    refine ⟨?_, hne⟩
    have h3 := List.getD_eq_getElem labels (-1) hi
    rw [hcl] at h3
    rw [h3]
    exact List.getElem_mem hi
  obtain ⟨s, t, hsplit⟩ := List.append_of_mem hclmem
  have hnd := nodup_dedupLabels labels
  rw [hsplit] at hnd
  have hnds := (List.nodup_append.mp hnd)
  have hs : cl ∉ s := fun h => hnds.2.2 h (List.mem_cons_self cl t)
  have ht : cl ∉ t := (List.nodup_cons.mp hnds.2.1).1
  have hother : ∀ c : Int, c ≠ cl → i ∉ groupIndices labels c := by
    intro c hc hmem
    have h2 := (mem_groupIndices.mp hmem).2
    rw [hcl] at h2
    exact hc h2.symm
  unfold markDuplicates clusterGroups
  rw [hsplit, List.map_append, List.foldl_append, List.map_cons,
    List.foldl_cons]
  rw [getD_foldl_markCluster_frame d0 (t.map
      (fun c => (c, groupIndices labels c))) _ ?_]
  · have hframe_s : (List.foldl (fun acc q => markCluster q.1 q.2 acc) arts
        (s.map (fun c => (c, groupIndices labels c)))).getD i d0
        = arts.getD i d0 := by
      apply getD_foldl_markCluster_frame
      intro q hq
      rcases List.mem_map.mp hq with ⟨c, hc, rfl⟩
      exact hother c (fun h => hs (h ▸ hc))
    have hlen_s : (List.foldl (fun acc q => markCluster q.1 q.2 acc) arts
        (s.map (fun c => (c, groupIndices labels c)))).length
        = arts.length := length_foldl_markCluster _ _
    exact getD_markCluster_congr cl d0 (groupIndices labels cl)
      (nodup_groupIndices labels cl) hiG arts _ hlen_s
      (hlen ▸ hi) hframe_s
  · intro q hq
    rcases List.mem_map.mp hq with ⟨c, hc, rfl⟩
    exact hother c (fun h => ht (h ▸ hc))

/-- The first member of a cluster with at least two members gets the group id
stamped but keeps its duplicate flag. -/
theorem getD_markDuplicates_head (arts : List Article) (labels : List Int)
    {i : Nat} {cl : Int} {tail : List Nat}
    (hlen : labels.length = arts.length)
    (hcl : labels.getD i (-1) = cl) (hne : cl ≠ -1)
    (hG : groupIndices labels cl = i :: tail) (htail : tail ≠ []) :
    (markDuplicates arts labels).getD i default
      = { arts.getD i default with
          duplicate_group_id := some ("group_" ++ toString cl) } := by
  have hi : i < labels.length := by
    have : i ∈ groupIndices labels cl := by
      rw [hG]
      exact List.mem_cons_self i tail
    exact (mem_groupIndices.mp this).1
  rw [getD_markDuplicates_cluster arts labels default hlen hi hcl hne, hG]
  exact getD_markCluster_head cl default tail arts htail
    (hG ▸ nodup_groupIndices labels cl) (hlen ▸ hi)

/-- A cluster whose label group is a singleton leaves its member unchanged. -/
theorem getD_markDuplicates_singleton (arts : List Article) (labels : List Int)
    {i : Nat} {cl : Int}
    (hlen : labels.length = arts.length)
    (hcl : labels.getD i (-1) = cl) (hne : cl ≠ -1)
    (hG : groupIndices labels cl = [i]) :
    (markDuplicates arts labels).getD i default = arts.getD i default := by
  have hi : i < labels.length := by
    have : i ∈ groupIndices labels cl := by
      rw [hG]
      exact List.mem_cons_self i []
    exact (mem_groupIndices.mp this).1
  rw [getD_markDuplicates_cluster arts labels default hlen hi hcl hne, hG]
  rfl

/-- Every non-first member of a cluster is marked a duplicate and stamped. -/
theorem getD_markDuplicates_tail (arts : List Article) (labels : List Int)
    {i p : Nat} {cl : Int} {tail : List Nat}
    (hlen : labels.length = arts.length) (hne : cl ≠ -1)
    (hG : groupIndices labels cl = p :: tail) (hmem : i ∈ tail) :
    (markDuplicates arts labels).getD i default
      = { arts.getD i default with
          is_duplicate := true
          duplicate_group_id := some ("group_" ++ toString cl) } := by
  have hiG : i ∈ groupIndices labels cl := by
    rw [hG]
    exact List.mem_cons_of_mem p hmem
  have hi : i < labels.length := (mem_groupIndices.mp hiG).1
  have hcl : labels.getD i (-1) = cl := (mem_groupIndices.mp hiG).2
  rw [getD_markDuplicates_cluster arts labels default hlen hi hcl hne, hG]
  exact getD_markCluster_dup cl default tail arts hmem
    (hG ▸ nodup_groupIndices labels cl) (hlen ▸ hi)

/-! ### C5 -/

/-- C5 is false as stated over *every* input list: a single record arriving
already marked `is_duplicate = true` with no group id passes through
`cluster` unchanged, violating the marked-implies-grouped invariant. -/
theorem premarked_counterexample :
    ((detect_duplicates [preMarkedArticle] (Except.ok [-1])).headD
      default).is_duplicate = true ∧
    ((detect_duplicates [preMarkedArticle] (Except.ok [-1])).headD
      default).duplicate_group_id = none := ⟨by decide, by decide⟩

/-- C5 amended (restricted to inputs whose records are not pre-marked):
after `cluster`, every record with `is_duplicate = true` has a group id, and
in each non-noise cluster of two or more members the member with the lowest
original index (the first, since member indices are listed in increasing
order) keeps `is_duplicate = false`, all later members are marked
`is_duplicate = true`, and every member including the first carries the group
id `group_<label>`. -/
theorem cluster_marking_invariants (arts : List Article) (labels : List Int)
    (hlen : labels.length = arts.length)
    (hclean : ∀ a ∈ arts, a.is_duplicate = false) :
    (∀ a ∈ detect_duplicates arts (Except.ok labels),
      a.is_duplicate = true → a.duplicate_group_id ≠ none) ∧
    (∀ cl : Int, cl ≠ -1 → 2 ≤ (groupIndices labels cl).length →
      (∀ i ∈ groupIndices labels cl,
        (groupIndices labels cl).headD 0 ≤ i) ∧
      ((detect_duplicates arts (Except.ok labels)).getD
        ((groupIndices labels cl).headD 0) default).is_duplicate = false ∧
      (∀ i ∈ (groupIndices labels cl).tail,
        ((detect_duplicates arts (Except.ok labels)).getD i
          default).is_duplicate = true) ∧
      (∀ i ∈ groupIndices labels cl,
        ((detect_duplicates arts (Except.ok labels)).getD i
          default).duplicate_group_id
          = some ("group_" ++ toString cl))) := by
  have hdd : detect_duplicates arts (Except.ok labels)
      = if arts.length < 2 then arts else markDuplicates arts labels := rfl
  by_cases hsmall : arts.length < 2
  · rw [hdd, if_pos hsmall]
    constructor
    · intro a ha hdup
      rw [hclean a ha] at hdup
      cases hdup
    · intro cl _ h2
      exfalso
      have h3 := length_groupIndices_le labels cl
      omega
  · rw [hdd, if_neg hsmall]
    constructor
    · intro a ha hdup
      obtain ⟨n, hn, hget⟩ := List.mem_iff_getElem.mp ha
      have hnlt : n < arts.length := by
        have := length_markDuplicates arts labels
        omega
      have hgetD : (markDuplicates arts labels).getD n default = a := by
        rw [List.getD_eq_getElem _ _ hn]
        exact hget
      have hmemarts : arts.getD n default ∈ arts := by
        rw [List.getD_eq_getElem _ _ hnlt]
        exact List.getElem_mem hnlt
      by_cases hnoise : labels.getD n (-1) = -1
      · have heq := getD_markDuplicates_noise arts labels default hnoise
        rw [hgetD] at heq
        rw [heq] at hdup
        rw [hclean _ hmemarts] at hdup
        cases hdup
      · have hnG : n ∈ groupIndices labels (labels.getD n (-1)) :=
          mem_groupIndices.mpr ⟨by omega, rfl⟩
        rcases hGeq : groupIndices labels (labels.getD n (-1))
          with _ | ⟨p, tail⟩
        · rw [hGeq] at hnG
          cases hnG
        · rw [hGeq] at hnG
          rcases List.mem_cons.mp hnG with rfl | htail
          · cases tail with
            | nil =>
              have heq := getD_markDuplicates_singleton arts labels hlen rfl
                hnoise hGeq
              rw [hgetD] at heq
              rw [heq] at hdup
              rw [hclean _ hmemarts] at hdup
              cases hdup
            | cons t0 ts =>
              have heq := getD_markDuplicates_head arts labels hlen rfl
                hnoise hGeq (by simp)
              rw [hgetD] at heq
              rw [heq]
              simp
          · have heq := getD_markDuplicates_tail arts labels hlen hnoise
              hGeq htail
            rw [hgetD] at heq
            rw [heq]
            simp
    · intro cl hne h2
      rcases hGeq : groupIndices labels cl with _ | ⟨p, tail⟩
      · rw [hGeq] at h2
        simp at h2
      · have htail_ne : tail ≠ [] := by
          intro h
          rw [hGeq, h] at h2
          simp at h2
        have hsort := sorted_groupIndices labels cl
        rw [hGeq] at hsort
        have hlow : ∀ i ∈ p :: tail, (p :: tail).headD 0 ≤ i := by
          intro i hi
          rcases List.mem_cons.mp hi with rfl | hit
          · exact Nat.le_refl _
          · have hp := (List.pairwise_cons.mp hsort).1 i hit
            show p ≤ i
            omega
        have hpmem : p ∈ groupIndices labels cl := by
          rw [hGeq]
          exact List.mem_cons_self p tail
        have hpcl : labels.getD p (-1) = cl := (mem_groupIndices.mp hpmem).2
        have hplt : p < labels.length := (mem_groupIndices.mp hpmem).1
        have hhead := getD_markDuplicates_head arts labels hlen hpcl hne
          hGeq htail_ne
        refine ⟨hlow, ?_, ?_, ?_⟩
        · rw [show (p :: tail).headD 0 = p from rfl, hhead]
          show (arts.getD p default).is_duplicate = false
          apply hclean
          rw [List.getD_eq_getElem _ _ (by omega : p < arts.length)]
          exact List.getElem_mem _
        · intro i hi
          rw [getD_markDuplicates_tail arts labels hlen hne hGeq hi]
        · intro i hi
          rcases List.mem_cons.mp hi with rfl | hit
          · rw [hhead]
          · rw [getD_markDuplicates_tail arts labels hlen hne hGeq hit]

theorem cluster_marking_invariants_witness :
    ((detect_duplicates [exArticle1, exArticle2] (Except.ok [0, 0])).getD
      ((groupIndices [0, 0] 0).headD 0) default).is_duplicate = false ∧
    ((detect_duplicates [exArticle1, exArticle2] (Except.ok [0, 0])).getD 1
      default).duplicate_group_id = some "group_0" := by
  have h := cluster_marking_invariants [exArticle1, exArticle2] [0, 0]
    (by decide) (by decide)
  have h2 := h.2 0 (by decide) (by decide)
  refine ⟨h2.2.1, ?_⟩
  have h3 := h2.2.2.2 1 (by decide)
  rw [show ("group_" ++ toString (0 : Int)) = "group_0" from by decide] at h3
  exact h3

/-! ### Survivors of a clustering run -/

theorem filter_eq_map_range (p : Article → Bool) :
    ∀ (l : List Article),
      l.filter p
        = ((List.range l.length).filter (fun i => p (l.getD i default))).map
            (fun i => l.getD i default)
  | [] => rfl
  | a :: rest => by
    by_cases hpa : p a
    · rw [List.filter_cons, if_pos hpa, List.length_cons,
        List.range_succ_eq_map, List.filter_cons]
      rw [if_pos (show p ((a :: rest).getD 0 default) = true from hpa)]
      rw [List.map_cons, List.filter_map, List.map_map]
      exact congrArg (List.cons a) (filter_eq_map_range p rest)
    · rw [List.filter_cons, if_neg hpa, List.length_cons,
        List.range_succ_eq_map, List.filter_cons]
      rw [if_neg (show ¬ p ((a :: rest).getD 0 default) = true from hpa)]
      rw [List.filter_map, List.map_map]
      exact filter_eq_map_range p rest

theorem survivors_eq (l : List Article) :
    l.filter (fun a => !a.is_duplicate)
      = (survivorIdx l).map (fun i => l.getD i default) :=
  filter_eq_map_range _ l

theorem mem_survivorIdx {l : List Article} {i : Nat} :
    i ∈ survivorIdx l
      ↔ i < l.length ∧ (l.getD i default).is_duplicate = false := by
  unfold survivorIdx
  simp [List.mem_filter, List.mem_range]

theorem nodup_survivorIdx (l : List Article) : (survivorIdx l).Nodup :=
  (List.nodup_range _).filter _

theorem survivorIdx_getD_mem {l : List Article} {p : Nat}
    (hp : p < (survivorIdx l).length) :
    (survivorIdx l).getD p 0 ∈ survivorIdx l := by
  rw [List.getD_eq_getElem _ _ hp]
  exact List.getElem_mem hp

theorem survivorIdx_getD_inj {l : List Article} {p q : Nat}
    (hp : p < (survivorIdx l).length) (hq : q < (survivorIdx l).length)
    (hne : p ≠ q) : (survivorIdx l).getD p 0 ≠ (survivorIdx l).getD q 0 := by
  rw [List.getD_eq_getElem _ _ hp, List.getD_eq_getElem _ _ hq]
  intro h
  exact hne (((nodup_survivorIdx l).getElem_inj_iff).mp h)

theorem markDuplicates_all_noise (arts : List Article) (labels : List Int)
    (h : ∀ x ∈ labels, x = -1) : markDuplicates arts labels = arts := by
  have hd : dedupLabels labels = [] := by
    rw [List.eq_nil_iff_forall_not_mem]
    intro cl hcl
    have h2 := mem_dedupLabels.mp hcl
    exact h2.2 (h cl h2.1)
  unfold markDuplicates clusterGroups
  rw [hd]
  rfl

theorem length_detect_duplicates (arts : List Article) (labels : List Int) :
    (detect_duplicates arts (Except.ok labels)).length = arts.length := by
  unfold detect_duplicates
  split
  · rfl
  · exact length_markDuplicates arts labels

theorem adjOf_symm {sim : Nat → Nat → ℚ} {eps : ℚ}
    (hsym : ∀ i j, sim i j = sim j i) {i j : Nat} (h : adjOf sim eps i j) :
    adjOf sim eps j i := by
  obtain ⟨hne, hd⟩ := h
  refine ⟨fun hh => hne hh.symm, ?_⟩
  unfold distOf at hd ⊢
  rw [if_neg (fun hh : j = i => hne hh.symm), hsym j i]
  rw [if_neg hne] at hd
  exact hd

/-- A record a clustering run left unmarked was either noise or the first
member of its cluster. -/
theorem unmarked_noise_or_head (arts : List Article) (labels : List Int)
    {i : Nat} (hlen : labels.length = arts.length) (hi : i < labels.length)
    (hdup : ((markDuplicates arts labels).getD i default).is_duplicate
      = false) :
    labels.getD i (-1) = -1 ∨
      (groupIndices labels (labels.getD i (-1))).headD 0 = i := by
  by_cases hnoise : labels.getD i (-1) = -1
  · exact Or.inl hnoise
  · have hiG : i ∈ groupIndices labels (labels.getD i (-1)) :=
      mem_groupIndices.mpr ⟨hi, rfl⟩
    rcases hGeq : groupIndices labels (labels.getD i (-1)) with _ | ⟨p, tail⟩
    · rw [hGeq] at hiG
      cases hiG
    · rw [hGeq] at hiG
      rcases List.mem_cons.mp hiG with rfl | htail
      · exact Or.inr rfl
      · exfalso
        have heq := getD_markDuplicates_tail arts labels hlen hnoise
          hGeq htail
        rw [heq] at hdup
        simp at hdup

/-! ### C6 -/

theorem simEx_symm : ∀ i j, simEx i j = simEx j i := by
  intro i j
  unfold simEx
  by_cases h : i = j
  · subst h
    rfl
  · rw [if_neg h, if_neg (fun h2 : j = i => h h2.symm)]

/-- C6: re-clustering the duplicate-free records produced by a first
clustering run (same similarity and threshold, restricted to the survivors)
marks no record as a duplicate: the survivors are pairwise outside each
other's `eps`-neighbourhood, so any valid second DBSCAN labelling is
all-noise and the marking loop does nothing. -/
theorem cluster_idempotent (arts : List Article) (sim : Nat → Nat → ℚ)
    (eps : ℚ) (labels1 labels2 : List Int)
    (hsym : ∀ i j, sim i j = sim j i)
    (h1 : DBSCANValid arts.length (adjOf sim eps) labels1)
    (h2 : DBSCANValid
      ((detect_duplicates arts (Except.ok labels1)).filter
        (fun a => !a.is_duplicate)).length
      (adjOf (fun p q =>
        sim ((survivorIdx (detect_duplicates arts
              (Except.ok labels1))).getD p 0)
            ((survivorIdx (detect_duplicates arts
              (Except.ok labels1))).getD q 0)) eps)
      labels2) :
    ∀ a ∈ detect_duplicates
        ((detect_duplicates arts (Except.ok labels1)).filter
          (fun a => !a.is_duplicate))
        (Except.ok labels2),
      a.is_duplicate = false := by
  intro a ha
  set out1 := detect_duplicates arts (Except.ok labels1) with hout1
  set surv := out1.filter (fun a => !a.is_duplicate) with hsurv
  by_cases hm : surv.length < 2
  · unfold detect_duplicates at ha
    rw [if_pos hm] at ha
    rw [hsurv] at ha
    have hf := List.mem_filter.mp ha
    simpa using hf.2
  · have hS_len : (survivorIdx out1).length = surv.length := by
      rw [hsurv, survivors_eq out1, List.length_map]
    have hout1_len : out1.length = arts.length :=
      length_detect_duplicates arts labels1
    have hn2 : ¬ arts.length < 2 := by
      intro hlt
      apply hm
      have hle : surv.length ≤ out1.length := by
        rw [hsurv]
        exact List.length_filter_le _ _
      omega
    have hout1_eq : out1 = markDuplicates arts labels1 := by
      rw [hout1]
      unfold detect_duplicates
      rw [if_neg hn2]
    have hlen1 : labels1.length = arts.length := h1.1
    have hnadj : ∀ p q : Nat, p < surv.length → q < surv.length → p ≠ q →
        ¬ adjOf (fun p q => sim ((survivorIdx out1).getD p 0)
          ((survivorIdx out1).getD q 0)) eps p q := by
      intro p q hp hq hpq hadj
      obtain ⟨hne2, hdist⟩ := hadj
      set ia := (survivorIdx out1).getD p 0 with hia
      set ib := (survivorIdx out1).getD q 0 with hib
      have hpS : p < (survivorIdx out1).length := by omega
      have hqS : q < (survivorIdx out1).length := by omega
      have hiaF := mem_survivorIdx.mp (survivorIdx_getD_mem hpS)
      have hibF := mem_survivorIdx.mp (survivorIdx_getD_mem hqS)
      have hab : ia ≠ ib := survivorIdx_getD_inj hpS hqS hpq
      have hadj_ab : adjOf sim eps ia ib := by
        refine ⟨hab, ?_⟩
        unfold distOf at hdist ⊢
        rw [if_neg hne2] at hdist
        rw [if_neg hab]
        exact hdist
      have hia_lt : ia < arts.length := by
        have := hiaF.1
        omega
      have hib_lt : ib < arts.length := by
        have := hibF.1
        omega
      have hdup_a : ((markDuplicates arts labels1).getD ia
          default).is_duplicate = false := by
        rw [← hout1_eq]
        exact hiaF.2
      have hdup_b : ((markDuplicates arts labels1).getD ib
          default).is_duplicate = false := by
        rw [← hout1_eq]
        exact hibF.2
      have hcase_a := unmarked_noise_or_head arts labels1 hlen1
        (by omega) hdup_a
      have hcase_b := unmarked_noise_or_head arts labels1 hlen1
        (by omega) hdup_b
      rcases hcase_a with hnoise_a | hhead_a
      · exact (h1.2.1 ia (by omega)).mp hnoise_a ib (by omega) hadj_ab
      · rcases hcase_b with hnoise_b | hhead_b
        · exact (h1.2.1 ib (by omega)).mp hnoise_b ia (by omega)
            (adjOf_symm hsym hadj_ab)
        · have hlab := h1.2.2 ia (by omega) ib (by omega) hadj_ab
          rw [hlab] at hhead_a
          rw [hhead_b] at hhead_a
          exact hab hhead_a.symm
    have hall : ∀ x ∈ labels2, x = -1 := by
      intro x hx
      obtain ⟨k, hk, hkx⟩ := List.mem_iff_getElem.mp hx
      have hlab2 : labels2.length = surv.length := h2.1
      have hk2 : k < surv.length := by omega
      have hiff := h2.2.1 k hk2
      have hzero : labels2.getD k (-1) = -1 := by
        apply hiff.mpr
        intro j hj hadj
        by_cases hkj : k = j
        · exact hadj.1 hkj
        · exact hnadj k j hk2 hj hkj hadj
      rw [List.getD_eq_getElem _ _ hk] at hzero
      rw [← hkx]
      exact hzero
    have hmark : markDuplicates surv labels2 = surv :=
      markDuplicates_all_noise surv labels2 hall
    unfold detect_duplicates at ha
    rw [if_neg hm] at ha
    have ha2 : a ∈ markDuplicates surv labels2 := ha
    rw [hmark, hsurv] at ha2
    have hf := List.mem_filter.mp ha2
    simpa using hf.2

/-- A valid labelling for re-clustering the single surviving example record:
one point, noise. -/
theorem dbscanValid_example_survivors :
    DBSCANValid
      ((detect_duplicates [exArticle1, exArticle2]
        (Except.ok [0, 0])).filter (fun a => !a.is_duplicate)).length
      (adjOf (fun p q =>
        simEx ((survivorIdx (detect_duplicates [exArticle1, exArticle2]
              (Except.ok [0, 0]))).getD p 0)
            ((survivorIdx (detect_duplicates [exArticle1, exArticle2]
              (Except.ok [0, 0]))).getD q 0)) (1 - SIMILARITY_THRESHOLD))
      [-1] := by
  have hlen1 : ((detect_duplicates [exArticle1, exArticle2]
      (Except.ok [0, 0])).filter (fun a => !a.is_duplicate)).length = 1 := by
    decide
  refine ⟨by rw [hlen1]; rfl, ?_, ?_⟩
  · intro i hi
    rw [hlen1] at hi
    interval_cases i
    constructor
    · intro _ j hj hadj
      rw [hlen1] at hj
      interval_cases j
      exact hadj.1 rfl
    · intro _
      rfl
  · intro i hi j hj hadj
    rw [hlen1] at hi hj
    interval_cases i
    interval_cases j
    exact absurd rfl hadj.1

theorem cluster_idempotent_witness :
    ((detect_duplicates
      ((detect_duplicates [exArticle1, exArticle2] (Except.ok [0, 0])).filter
        (fun a => !a.is_duplicate))
      (Except.ok [-1])).headD default).is_duplicate = false := by
  have hmem : (detect_duplicates ((detect_duplicates [exArticle1, exArticle2]
      (Except.ok [0, 0])).filter (fun a => !a.is_duplicate))
      (Except.ok [-1])).headD default
      ∈ detect_duplicates ((detect_duplicates [exArticle1, exArticle2]
      (Except.ok [0, 0])).filter (fun a => !a.is_duplicate))
      (Except.ok [-1]) := by decide
  exact cluster_idempotent [exArticle1, exArticle2] simEx
    (1 - SIMILARITY_THRESHOLD) [0, 0] [-1] simEx_symm
    dbscanValid_example dbscanValid_example_survivors _ hmem
